import Mathlib

/-!
Shallow embedding of the valuation core of the Portfolio web application:
the exchange-rate cache and currency converter (src/utils/currencyUtils.ts),
the per-holding valuation functions (src/utils/dataFetching.ts), and the
portfolio aggregator (src/context/PortfolioContext.tsx).

JS numbers are modelled as exact rationals and JS Date.now() timestamps as
integers (milliseconds).  The module-level mutable rate cache is passed as
explicit state, and the outcome of each network fetch is supplied by an
oracle so that failing and succeeding fetches can both be described.
-/

namespace Portfolio

/-- The Currency enum (src/types/index.ts, lines 89-101). -/
inductive Currency where
  | USD | ILS | EUR | GBP | JPY | CHF | CAD | AUD | CNY | HKD | SGD
deriving DecidableEq

/-- The Exchange enum (src/types/index.ts, lines 82-87). -/
inductive Exchange where
  | NYSE | NASDAQ | TASE | LSE
deriving DecidableEq

/-- A JS rate table Record<string, number>, restricted to the Currency keys the
program ever looks up; a key that is absent reads as undefined, i.e. none. -/
def RateTable : Type := Currency → Option ℚ

/-- JS truthiness of a rate-table lookup: undefined and 0 are both falsy
(the guard !rates[fromCurrency] at currencyUtils.ts line 80). -/
def truthy : Option ℚ → Bool
  | none => false
  | some r => decide (r ≠ 0)

/-- Number(x.toFixed(2)): rounding to 2 decimal places, ties away from zero,
as ECMAScript toFixed behaves on the exact rational model of JS numbers. -/
def toFixed2 (q : ℚ) : ℚ :=
  if q < 0 then -(((round ((-q) * 100) : ℤ) : ℚ) / 100)
  else ((round (q * 100) : ℤ) : ℚ) / 100

/-- CACHE_DURATION = 60 * 60 * 1000 (currencyUtils.ts lines 8-9): one hour,
in milliseconds, matching the Date.now() timestamps. -/
def CACHE_DURATION : ℤ := 60 * 60 * 1000

/-- DEFAULT_RATES (currencyUtils.ts lines 16-28): the hardcoded fallback
table, defined on every Currency value. -/
def DEFAULT_RATES : RateTable := fun c =>
  some (match c with
    | .USD => 1 | .ILS => 3.65 | .EUR => 0.85 | .GBP => 0.73 | .JPY => 110
    | .CHF => 0.92 | .CAD => 1.25 | .AUD => 1.35 | .CNY => 6.45
    | .HKD => 7.78 | .SGD => 1.35)

/-- The value stored in the module-level exchangeRatesCache variable
(currencyUtils.ts lines 10-13): a rate table and the Date.now() value at
which it was stored. -/
structure RatesCache where
  rates : RateTable
  timestamp : ℤ

/-- exchangeRatesCache itself, initially null. -/
abbrev CacheState := Option RatesCache

/-- How one attempted network fetch of exchange rates can end
(currencyUtils.ts lines 38-48): the fetch call rejects, response.ok is
false, the JSON payload has no rates object, or a rate table is obtained. -/
inductive FetchOutcome where
  | netError
  | httpError
  | badPayload
  | ok (rates : RateTable)

/-- Whether a fetch outcome takes the catch branch of fetchExchangeRates. -/
def FetchOutcome.isFailure : FetchOutcome → Bool
  | .netError => true
  | .httpError => true
  | .badPayload => true
  | .ok _ => false

/-- The observable result of one call to fetchExchangeRates: the returned
table, the cache afterwards, and whether a network fetch was issued. -/
structure FetchResult where
  rates : RateTable
  cache : CacheState
  didFetch : Bool

/-- The part of fetchExchangeRates below the cache check (currencyUtils.ts
lines 38-61): on success the cache is replaced wholesale; in the catch
branch DEFAULT_RATES is returned and the cache is left as it was. -/
def fetchNetwork (cache : CacheState) (now : ℤ) (outcome : FetchOutcome) :
    FetchResult :=
  match outcome with
  | .ok rates => ⟨rates, some ⟨rates, now⟩, true⟩
  | _ => ⟨DEFAULT_RATES, cache, true⟩

/-- fetchExchangeRates (currencyUtils.ts lines 31-62), with the module-level
cache passed explicitly, Date.now() as the now argument, and the network
behaviour supplied by outcome.  The function is total: every failure is
caught inside it. -/
def fetchExchangeRates (cache : CacheState) (now : ℤ) (outcome : FetchOutcome) :
    FetchResult :=
  match cache with
  | some c =>
    if now - c.timestamp < CACHE_DURATION then ⟨c.rates, some c, false⟩
    else fetchNetwork (some c) now outcome
  | none => fetchNetwork none now outcome

/-- The state a conversion-time call sees: the cache, the (frozen) clock,
and how many network fetches have been issued so far. -/
structure World where
  cache : CacheState
  now : ℤ
  fetchCount : ℕ

/-- The outcome of the n-th network fetch of the run. -/
abbrev Oracle := ℕ → FetchOutcome

/-- One call of await fetchExchangeRates() inside another function: the
next fetch outcome of the oracle is consumed only if a network fetch is
actually issued. -/
def fetchExchangeRatesW (om : Oracle) (w : World) : RateTable × World :=
  let r := fetchExchangeRates w.cache w.now (om w.fetchCount)
  (r.rates, ⟨r.cache, w.now, w.fetchCount + (if r.didFetch then 1 else 0)⟩)

/-- The body of the try block of convertCurrency after the rates are in
scope (currencyUtils.ts lines 79-95): Except.error () models the thrown
Error for a missing or zero rate, Except.ok the computed conversion. -/
def convertWithRates (rates : RateTable) (amount : ℚ)
    (fromC toC : Currency) : Except Unit ℚ :=
  if !truthy (rates fromC) || !truthy (rates toC) then .error ()
  else
    let amountInUSD :=
      if fromC = Currency.USD then amount else amount / (rates fromC).getD 0
    let convertedAmount :=
      if toC = Currency.USD then amountInUSD else amountInUSD * (rates toC).getD 0
    .ok (toFixed2 convertedAmount)

/-- convertCurrency (currencyUtils.ts lines 67-101).  The identity check
runs before any cache access, so in that branch the world is untouched;
otherwise the rates are obtained through the cache and the catch branch
turns any internal failure into the original amount. -/
def convertCurrency (om : Oracle) (amount : ℚ) (fromC toC : Currency)
    (w : World) : ℚ × World :=
  if fromC = toC then (amount, w)
  else
    let rw := fetchExchangeRatesW om w
    match convertWithRates rw.1 amount fromC toC with
    | .ok v => (v, rw.2)
    | .error _ => (amount, rw.2)

/-- A Purchase lot (src/types/index.ts lines 15-21); the date is an epoch
timestamp. -/
structure Purchase where
  id : String
  price : ℚ
  quantity : ℚ
  date : ℤ
  currency : Currency
deriving DecidableEq

/-- An Asset (src/types/index.ts lines 2-13, plus the
currentPriceOverwritten flag that PortfolioContext.tsx line 116 attaches
from the current_price_overwritten column). -/
structure Asset where
  id : String
  name : String
  ticker : String
  exchange : Exchange
  tradingCurrency : Currency
  broker : String
  purchases : List Purchase
  currentPrice : ℚ
  previousPrice : ℚ
  lastUpdated : ℤ
  currentPriceOverwritten : Bool

/-- calculateTotalShares (dataFetching.ts lines 211-213):
asset.purchases.reduce((total, purchase) => total + purchase.quantity, 0). -/
def calculateTotalShares (asset : Asset) : ℚ :=
  asset.purchases.foldl (fun total p => total + p.quantity) 0

/-- The for-of loop of calculateAverageCost (dataFetching.ts lines 188-199),
threading the cache world through the sequential awaited conversions. -/
def costLoop (om : Oracle) (target : Currency) :
    List Purchase → ℚ → ℚ → World → ℚ × ℚ × World
  | [], totalCost, totalShares, w => (totalCost, totalShares, w)
  | p :: ps, totalCost, totalShares, w =>
    let cw := convertCurrency om p.price p.currency target w
    costLoop om target ps (totalCost + cw.1 * p.quantity)
      (totalShares + p.quantity) cw.2

/-- calculateAverageCost (dataFetching.ts lines 181-206): zero lots give 0;
otherwise the converted-cost loop runs and the quotient is rounded to two
decimals, with the totalShares > 0 ternary guard. -/
def calculateAverageCost (om : Oracle) (asset : Asset) (target : Currency)
    (w : World) : ℚ × World :=
  if asset.purchases = [] then (0, w)
  else
    let r := costLoop om target asset.purchases 0 0 w
    (if 0 < r.2.1 then toFixed2 (r.1 / r.2.1) else 0, r.2.2)

/-- calculateProfitLoss (dataFetching.ts lines 218-243). -/
def calculateProfitLoss (om : Oracle) (asset : Asset) (target : Currency)
    (w : World) : (ℚ × ℚ) × World :=
  let totalShares := calculateTotalShares asset
  if totalShares = 0 then ((0, 0), w)
  else
    let aw := calculateAverageCost om asset target w
    let cw := convertCurrency om asset.currentPrice asset.tradingCurrency target aw.2
    let absolute := toFixed2 ((cw.1 - aw.1) * totalShares)
    let percentage :=
      if 0 < aw.1 then toFixed2 ((cw.1 - aw.1) / aw.1 * 100) else 0
    ((absolute, percentage), cw.2)

/-- The loop of calculateTotal (PortfolioContext.tsx lines 217-229): each
asset's market value currentPrice * reduce-of-quantities is converted to the
selected currency and the converted values are summed. -/
def totalLoop (om : Oracle) (target : Currency) :
    List Asset → World → ℚ × World
  | [], w => (0, w)
  | a :: rest, w =>
    let assetValue :=
      a.currentPrice * a.purchases.foldl (fun qty p => qty + p.quantity) 0
    let cw := convertCurrency om assetValue a.tradingCurrency target w
    let rw := totalLoop om target rest cw.2
    (cw.1 + rw.1, rw.2)

/-- calculateTotal (PortfolioContext.tsx lines 217-229). -/
def calculateTotal (om : Oracle) (assets : List Asset) (target : Currency)
    (w : World) : ℚ × World :=
  totalLoop om target assets w

/-- The per-holding converted market values, in call order, with the final
world: the specification-side reading of the aggregator. -/
def holdingValues (om : Oracle) (target : Currency) :
    List Asset → World → List ℚ × World
  | [], w => ([], w)
  | a :: rest, w =>
    let cw := convertCurrency om (a.currentPrice * calculateTotalShares a)
      a.tradingCurrency target w
    let rw := holdingValues om target rest cw.2
    (cw.1 :: rw.1, rw.2)

/-- The converted cost of each lot (converted price times quantity), in call
order, with the final world: the specification-side reading of the
averageCost loop. -/
def lotCosts (om : Oracle) (target : Currency) :
    List Purchase → World → List ℚ × World
  | [], w => ([], w)
  | p :: ps, w =>
    let cw := convertCurrency om p.price p.currency target w
    let rw := lotCosts om target ps cw.2
    (cw.1 * p.quantity :: rw.1, rw.2)

/-- A stock quote as returned by fetchStockQuote (dataFetching.ts lines
24-29). -/
structure StockQuote where
  symbol : String
  price : ℚ
  previousClose : ℚ
  timestamp : ℤ

/-- The body of the map inside fetchLatestPrices (dataFetching.ts lines
145-167): quotes gives what fetchStockQuote returns for a ticker, rand the
Math.random() * 4 - 2 percentage used when the quote is unavailable, and
nowT the new Date() timestamp of that branch. -/
def refreshAsset (quotes : String → Option StockQuote) (rand : String → ℚ)
    (nowT : ℤ) (asset : Asset) : Asset :=
  match quotes asset.ticker with
  | some quote =>
    { asset with
        currentPrice := quote.price
        previousPrice := quote.previousClose
        lastUpdated := quote.timestamp }
  | none =>
    let previousPrice := asset.currentPrice
    let changePercent := rand asset.ticker
    let newPrice := previousPrice * (1 + changePercent / 100)
    { asset with
        previousPrice := previousPrice
        currentPrice := toFixed2 newPrice
        lastUpdated := nowT }

/-- fetchLatestPrices (dataFetching.ts lines 142-176). -/
def fetchLatestPrices (quotes : String → Option StockQuote)
    (rand : String → ℚ) (nowT : ℤ) (assets : List Asset) : List Asset :=
  assets.map (refreshAsset quotes rand nowT)

/-- An oracle on which every network fetch fails: a broken fetch layer. -/
def brokenOracle : Oracle := fun _ => FetchOutcome.netError

/-- The module-load state: null cache, clock at 0, no fetches issued. -/
def w0 : World := ⟨none, 0, 0⟩

/-- A world whose cache holds the default table, freshly stamped. -/
def wDefault : World := ⟨some ⟨DEFAULT_RATES, 0⟩, 0, 0⟩

/-- A live rate table with no entries at all. -/
def emptyTable : RateTable := fun _ => none

/-- An oracle whose fetches succeed but deliver the empty table. -/
def okEmptyOracle : Oracle := fun _ => FetchOutcome.ok emptyTable

/-- A live rate table mapping ILS to 0 and every other code to 1. -/
def zeroIlsTable : RateTable := fun c =>
  if c = Currency.ILS then some 0 else some 1

/-- An oracle whose fetches succeed with zeroIlsTable. -/
def okZeroIlsOracle : Oracle := fun _ => FetchOutcome.ok zeroIlsTable

/-- A purchase lot in USD on day 0. -/
def usdLot (i : String) (price qty : ℚ) : Purchase :=
  ⟨i, price, qty, 0, Currency.USD⟩

/-- A USD-traded asset fixture. -/
def mkUsdAsset (ticker : String) (price : ℚ) (flag : Bool)
    (ps : List Purchase) : Asset :=
  ⟨ticker, ticker, ticker, Exchange.NASDAQ, Currency.USD, "broker", ps,
   price, price, 0, flag⟩

/-- Two USD lots: 1 share at 1 and 2 shares at 2 (average cost 5/3). -/
def twoLotAsset : Asset :=
  mkUsdAsset "TWO" 10 false [usdLot "p1" 1 1, usdLot "p2" 2 2]

/-- One USD lot of 10 shares at 100, current price 110. -/
def singleLotAsset : Asset := mkUsdAsset "ONE" 110 false [usdLot "p" 100 10]

/-- One USD lot of 1 share at 3, current price 4 (percentage gain 100/3). -/
def plAssetCE : Asset := mkUsdAsset "PLC" 4 false [usdLot "p" 3 1]

/-- An asset whose manual price override flag is set, current price 100. -/
def flagAsset : Asset := mkUsdAsset "AAPL" 100 true []

/-- A quote for AAPL at 50, previous close 49, timestamp 1. -/
def aaplQuote : StockQuote := ⟨"AAPL", 50, 49, 1⟩

/-- A quote source that only knows AAPL. -/
def aaplQuotes : String → Option StockQuote := fun s =>
  if s = "AAPL" then some aaplQuote else none

/-- A degenerate random-change source. -/
def zeroRand : String → ℚ := fun _ => 0

/-- A zero rate reads as falsy, exactly like a missing one. -/
theorem truthy_some_zero : truthy (some (0 : ℚ)) = false := by
  simp [truthy]

/-- When the try block of convertCurrency ends in the thrown error, the
catch branch hands the original amount back, in the post-fetch world. -/
theorem convertCurrency_error_eq (om : Oracle) (x : ℚ)
    (fromC toC : Currency) (w : World) (hne : fromC ≠ toC)
    (herr : convertWithRates (fetchExchangeRatesW om w).1 x fromC toC =
      Except.error ()) :
    convertCurrency om x fromC toC w = (x, (fetchExchangeRatesW om w).2) := by
  simp only [convertCurrency, if_neg hne, herr]

/-- C2: convertCurrency(x, C, C) returns x itself, unrounded, with the
world (cache contents, clock, fetch count) untouched, whatever the cache
state and however broken the fetch layer represented by the oracle is. -/
theorem convertCurrency_identity (om : Oracle) (x : ℚ) (c : Currency)
    (w : World) : convertCurrency om x c c w = (x, w) := by
  simp [convertCurrency]

/-- C5: a cached table younger than CACHE_DURATION is returned unchanged
with no network fetch; starting from an empty cache, a successful call
fetches once and stamps the cache, a second call inside the TTL window does
not fetch, and a call at or past the TTL fetches again. -/
theorem fetchExchangeRates_cache_ttl (c : RatesCache) (now t0 t1 t2 : ℤ)
    (o1 o2 o3 : FetchOutcome) (live : RateTable)
    (h0 : now - c.timestamp < CACHE_DURATION)
    (h1 : t1 - t0 < CACHE_DURATION)
    (h2 : CACHE_DURATION ≤ t2 - t0) :
    fetchExchangeRates (some c) now o1 = ⟨c.rates, some c, false⟩ ∧
    fetchExchangeRates none t0 (FetchOutcome.ok live) =
      ⟨live, some ⟨live, t0⟩, true⟩ ∧
    fetchExchangeRates (some ⟨live, t0⟩) t1 o2 =
      ⟨live, some ⟨live, t0⟩, false⟩ ∧
    (fetchExchangeRates (some ⟨live, t0⟩) t2 o3).didFetch = true := by
  refine ⟨?_, rfl, ?_, ?_⟩
  · simp [fetchExchangeRates, h0]
  · simp [fetchExchangeRates, h1]
  · have hn : ¬ (t2 - t0 < CACHE_DURATION) := not_lt.mpr h2
    cases o3 <;> simp [fetchExchangeRates, fetchNetwork, hn]

/-- C5 witness: one hour is 3600000 ms; at timestamps 0, 1000 and 3600000
the three calls fetch, serve the cache, and fetch again. -/
theorem fetchExchangeRates_cache_ttl_witness :
    fetchExchangeRates (some ⟨DEFAULT_RATES, 0⟩) 5 FetchOutcome.netError =
      ⟨DEFAULT_RATES, some ⟨DEFAULT_RATES, 0⟩, false⟩ ∧
    fetchExchangeRates none 0 (FetchOutcome.ok DEFAULT_RATES) =
      ⟨DEFAULT_RATES, some ⟨DEFAULT_RATES, 0⟩, true⟩ ∧
    fetchExchangeRates (some ⟨DEFAULT_RATES, 0⟩) 1000 FetchOutcome.httpError =
      ⟨DEFAULT_RATES, some ⟨DEFAULT_RATES, 0⟩, false⟩ ∧
    (fetchExchangeRates (some ⟨DEFAULT_RATES, 0⟩) 3600000
      (FetchOutcome.ok DEFAULT_RATES)).didFetch = true :=
  fetchExchangeRates_cache_ttl ⟨DEFAULT_RATES, 0⟩ 5 0 1000 3600000
    FetchOutcome.netError FetchOutcome.httpError (FetchOutcome.ok DEFAULT_RATES)
    DEFAULT_RATES (by decide) (by decide) (by decide)

/-- C6: whenever a network fetch is actually attempted (no fresh cache) and
it fails in any of the three ways, fetchExchangeRates returns normally with
the hardcoded DEFAULT_RATES and the cache exactly as it was. -/
theorem fetchExchangeRates_failure_default (cache : CacheState) (now : ℤ)
    (outcome : FetchOutcome)
    (hmiss : cache = none ∨
      ∃ c, cache = some c ∧ CACHE_DURATION ≤ now - c.timestamp)
    (hfail : outcome.isFailure = true) :
    fetchExchangeRates cache now outcome = ⟨DEFAULT_RATES, cache, true⟩ := by
  have hnet : fetchNetwork cache now outcome = ⟨DEFAULT_RATES, cache, true⟩ := by
    cases outcome <;> simp_all [fetchNetwork, FetchOutcome.isFailure]
  rcases hmiss with h | ⟨c, hc, hstale⟩
  · subst h; simpa [fetchExchangeRates] using hnet
  · subst hc
    simp only [fetchExchangeRates, if_neg (not_lt.mpr hstale)]
    exact hnet

/-- C6 witness: with an empty cache and a rejecting fetch, the default
table comes back and the cache stays empty. -/
theorem fetchExchangeRates_failure_default_witness :
    fetchExchangeRates none 0 FetchOutcome.netError =
      ⟨DEFAULT_RATES, none, true⟩ :=
  fetchExchangeRates_failure_default none 0 FetchOutcome.netError
    (Or.inl rfl) rfl

/-- C1: for distinct currencies whose rates are present and nonzero in the
table the cache layer hands over, convertCurrency computes the USD-pivoted
conversion and rounds it to 2 decimal places. -/
theorem convertCurrency_pivot_formula (om : Oracle) (x : ℚ)
    (fromC toC : Currency) (w : World) (rf rt : ℚ)
    (hne : fromC ≠ toC)
    (hf : (fetchExchangeRatesW om w).1 fromC = some rf) (hf0 : rf ≠ 0)
    (ht : (fetchExchangeRatesW om w).1 toC = some rt) (ht0 : rt ≠ 0) :
    (convertCurrency om x fromC toC w).1 =
      toFixed2 (if toC = Currency.USD
        then (if fromC = Currency.USD then x else x / rf)
        else (if fromC = Currency.USD then x else x / rf) * rt) := by
  simp only [convertCurrency, if_neg hne]
  simp only [convertWithRates, hf, ht, truthy, Option.getD_some]
  simp [hf0, ht0]

/-- C1 witness: 100 USD to ILS through the fresh default cache (rate 3.65)
is 365. -/
theorem convertCurrency_pivot_formula_witness :
    (convertCurrency brokenOracle 100 Currency.USD Currency.ILS wDefault).1 =
      365 := by
  have h := convertCurrency_pivot_formula brokenOracle 100 Currency.USD
    Currency.ILS wDefault 1 3.65 (by decide) rfl (by norm_num) rfl (by norm_num)
  rw [h, if_neg (by decide : ¬ (Currency.ILS = Currency.USD)), if_pos rfl]
  norm_num [toFixed2, round_eq]

/-- C9 (amended): an internal conversion failure (the only one the try
block can raise is the missing-or-zero-rate error) is swallowed: the caller
receives the original amount as an ordinary return value, never a failure. -/
theorem convertCurrency_swallows_failure (om : Oracle) (x : ℚ)
    (fromC toC : Currency) (w : World) (hne : fromC ≠ toC)
    (herr : convertWithRates (fetchExchangeRatesW om w).1 x fromC toC =
      Except.error ()) :
    (convertCurrency om x fromC toC w).1 = x := by
  rw [convertCurrency_error_eq om x fromC toC w hne herr]

/-- C9 witness: converting 100 USD to ILS against a live table with no
entries yields 100 back. -/
theorem convertCurrency_swallows_failure_witness :
    (convertCurrency okEmptyOracle 100 Currency.USD Currency.ILS w0).1 =
      100 :=
  convertCurrency_swallows_failure okEmptyOracle 100 Currency.USD
    Currency.ILS w0 (by decide) rfl

/-- C9 counterexample: the live table misses ILS (so the code's only
fallback-free failure case holds), the try block does throw, and yet the
caller of convertCurrency gets the plain value 100 — the original amount —
with the cache updated as usual: no failure is propagated. -/
theorem convertCurrency_no_failure_propagation :
    convertWithRates emptyTable 100 Currency.USD Currency.ILS =
      Except.error () ∧
    convertCurrency okEmptyOracle 100 Currency.USD Currency.ILS w0 =
      (100, ⟨some ⟨emptyTable, 0⟩, 0, 1⟩) :=
  ⟨rfl, rfl⟩

/-- C10: for distinct currencies, a rate that is missing or 0 for either
endpoint makes the guard of convertWithRates throw before the division is
ever formed, and convertCurrency returns the amount unchanged. -/
theorem convertCurrency_zero_rate_guard (om : Oracle) (x : ℚ)
    (fromC toC : Currency) (w : World) (hne : fromC ≠ toC)
    (hz : (fetchExchangeRatesW om w).1 fromC = none ∨
          (fetchExchangeRatesW om w).1 fromC = some 0 ∨
          (fetchExchangeRatesW om w).1 toC = none ∨
          (fetchExchangeRatesW om w).1 toC = some 0) :
    convertWithRates (fetchExchangeRatesW om w).1 x fromC toC =
      Except.error () ∧
    (convertCurrency om x fromC toC w).1 = x := by
  have herr : convertWithRates (fetchExchangeRatesW om w).1 x fromC toC =
      Except.error () := by
    rcases hz with h | h | h | h <;>
      simp [convertWithRates, h, truthy_some_zero, truthy]
  exact ⟨herr, by rw [convertCurrency_error_eq om x fromC toC w hne herr]⟩

/-- C10 witness: a live table carrying ILS ↦ 0 makes converting
100 USD to ILS throw at the guard and return 100 unchanged. -/
theorem convertCurrency_zero_rate_guard_witness :
    convertWithRates (fetchExchangeRatesW okZeroIlsOracle w0).1 100
      Currency.USD Currency.ILS = Except.error () ∧
    (convertCurrency okZeroIlsOracle 100 Currency.USD Currency.ILS w0).1 =
      100 :=
  convertCurrency_zero_rate_guard okZeroIlsOracle 100 Currency.USD
    Currency.ILS w0 (by decide) (Or.inr (Or.inr (Or.inr rfl)))

/-- The quantity fold of the source, as an accumulator-generalized sum. -/
theorem foldl_quantity (ps : List Purchase) (a : ℚ) :
    List.foldl (fun t p => t + p.quantity) a ps =
      a + (ps.map Purchase.quantity).sum := by
  induction ps generalizing a with
  | nil => simp
  | cons p ps ih => simp [ih, add_assoc]

/-- calculateTotalShares is the sum of the lot quantities. -/
theorem calculateTotalShares_eq (asset : Asset) :
    calculateTotalShares asset = (asset.purchases.map Purchase.quantity).sum := by
  simp [calculateTotalShares, foldl_quantity]

/-- The averageCost loop accumulates the converted lot costs and the lot
quantities, threading the cache world left to right. -/
theorem costLoop_eq (om : Oracle) (target : Currency) (ps : List Purchase)
    (c s : ℚ) (w : World) :
    costLoop om target ps c s w =
      (c + ((lotCosts om target ps w).1).sum,
       s + (ps.map Purchase.quantity).sum,
       (lotCosts om target ps w).2) := by
  induction ps generalizing c s w with
  | nil => simp [costLoop, lotCosts]
  | cons p ps ih => simp [costLoop, lotCosts, ih, add_assoc]

/-- The aggregator loop computes the sum of the per-holding converted
market values, threading the cache world left to right. -/
theorem totalLoop_eq (om : Oracle) (target : Currency) (assets : List Asset)
    (w : World) :
    totalLoop om target assets w =
      (((holdingValues om target assets w).1).sum,
       (holdingValues om target assets w).2) := by
  induction assets generalizing w with
  | nil => simp [totalLoop, holdingValues]
  | cons a rest ih => simp [totalLoop, holdingValues, ih, calculateTotalShares]

/-- Rounding 0 to two decimals gives 0. -/
theorem toFixed2_zero : toFixed2 0 = 0 := by
  simp [toFixed2]

/-- Converting a zero amount gives zero along every path of
convertCurrency: identity, missing-rate fallback, or the pivot formula. -/
theorem convertCurrency_zero (om : Oracle) (b c : Currency) (w : World) :
    (convertCurrency om 0 b c w).1 = 0 := by
  by_cases h : b = c
  · subst h; simp [convertCurrency_identity]
  · have key : ∀ rates : RateTable,
        convertWithRates rates 0 b c = Except.error () ∨
        convertWithRates rates 0 b c = Except.ok 0 := by
      intro rates
      by_cases hg : (!truthy (rates b) || !truthy (rates c)) = true
      · left; simp [convertWithRates, hg]
      · right
        simp [convertWithRates, hg, zero_div, zero_mul, toFixed2_zero]
    simp only [convertCurrency, if_neg h]
    rcases key (fetchExchangeRatesW om w).1 with h1 | h1 <;> simp [h1]

/-- C3 (amended): calculateAverageCost of a holding with no lots is 0; with
lots it is the sum of the converted lot costs divided by the total quantity,
rounded to 2 decimal places (and 0 under the defensive totalShares guard);
the single lot of 10 shares at 100 USD valued in USD gives exactly 100. -/
theorem calculateAverageCost_spec :
    (∀ (om : Oracle) (asset : Asset) (target : Currency) (w : World),
      calculateAverageCost om asset target w =
        if asset.purchases = [] then (0, w)
        else
          ((if 0 < calculateTotalShares asset then
              toFixed2 (((lotCosts om target asset.purchases w).1).sum /
                calculateTotalShares asset)
            else 0),
            (lotCosts om target asset.purchases w).2)) ∧
    (calculateAverageCost brokenOracle singleLotAsset Currency.USD w0).1 =
      100 := by
  constructor
  · intro om asset target w
    by_cases h : asset.purchases = []
    · simp [calculateAverageCost, h]
    · simp [calculateAverageCost, if_neg h, costLoop_eq,
        calculateTotalShares_eq]
  · norm_num [calculateAverageCost, costLoop, convertCurrency,
      singleLotAsset, mkUsdAsset, usdLot, toFixed2, round_eq]

/-- C3 counterexample: two USD lots, 1 share at 1 and 2 shares at 2, valued
in USD.  The claimed unrounded quotient of converted costs is 5/3, but
calculateAverageCost answers 1.67: the quotient is rounded to 2 decimals. -/
theorem calculateAverageCost_no_round_counterexample :
    (calculateAverageCost brokenOracle twoLotAsset Currency.USD w0).1 =
      167 / 100 ∧
    ((convertCurrency brokenOracle 1 Currency.USD Currency.USD w0).1 * 1 +
      (convertCurrency brokenOracle 2 Currency.USD Currency.USD w0).1 * 2) /
      (1 + 2) = 5 / 3 ∧
    (167 : ℚ) / 100 ≠ 5 / 3 := by
  refine ⟨?_, ?_, by norm_num⟩
  · norm_num [calculateAverageCost, costLoop, convertCurrency, twoLotAsset,
      mkUsdAsset, usdLot, toFixed2, round_eq]
    rw [if_neg (List.cons_ne_nil _ _)]
  · norm_num [convertCurrency]

/-- C4 (amended): calculateProfitLoss is {0, 0} at zero total shares;
otherwise absolute is (currentValue - averageCost) * totalShares rounded to
2 decimals and percentage is (currentValue - averageCost) / averageCost *
100, also rounded to 2 decimals, when averageCost > 0 and 0 otherwise; the
averageCost 100 / currentValue 110 / 10 shares example gives {100, 10}. -/
theorem calculateProfitLoss_spec :
    (∀ (om : Oracle) (asset : Asset) (target : Currency) (w : World),
      calculateProfitLoss om asset target w =
        if calculateTotalShares asset = 0 then ((0, 0), w)
        else
          ((toFixed2 (((convertCurrency om asset.currentPrice
                asset.tradingCurrency target
                (calculateAverageCost om asset target w).2).1 -
              (calculateAverageCost om asset target w).1) *
              calculateTotalShares asset),
            if 0 < (calculateAverageCost om asset target w).1 then
              toFixed2 (((convertCurrency om asset.currentPrice
                  asset.tradingCurrency target
                  (calculateAverageCost om asset target w).2).1 -
                (calculateAverageCost om asset target w).1) /
                (calculateAverageCost om asset target w).1 * 100)
            else 0),
            (convertCurrency om asset.currentPrice asset.tradingCurrency
              target (calculateAverageCost om asset target w).2).2)) ∧
    (calculateProfitLoss brokenOracle singleLotAsset Currency.USD w0).1 =
      (100, 10) := by
  constructor
  · intro om asset target w
    rfl
  · norm_num [calculateProfitLoss, calculateAverageCost, costLoop,
      convertCurrency, calculateTotalShares, singleLotAsset, mkUsdAsset,
      usdLot, toFixed2, round_eq]

/-- C4 counterexample: one USD lot of 1 share at 3, current price 4, valued
in USD.  The claim gives percentage (4 - 3) / 3 * 100 = 100/3, but
calculateProfitLoss answers 33.33: the percentage is rounded as well. -/
theorem calculateProfitLoss_percentage_counterexample :
    ((calculateProfitLoss brokenOracle plAssetCE Currency.USD w0).1).2 =
      3333 / 100 ∧
    ((convertCurrency brokenOracle plAssetCE.currentPrice Currency.USD
        Currency.USD w0).1 -
      (calculateAverageCost brokenOracle plAssetCE Currency.USD w0).1) /
      (calculateAverageCost brokenOracle plAssetCE Currency.USD w0).1 * 100 =
      100 / 3 ∧
    (3333 : ℚ) / 100 ≠ 100 / 3 := by
  refine ⟨?_, ?_, by norm_num⟩
  · norm_num [calculateProfitLoss, calculateAverageCost, costLoop,
      convertCurrency, calculateTotalShares, plAssetCE, mkUsdAsset, usdLot,
      toFixed2, round_eq]
  · norm_num [calculateAverageCost, costLoop, convertCurrency, plAssetCE,
      mkUsdAsset, usdLot, toFixed2, round_eq]

/-- C7: the portfolio total is the sum of the per-holding converted market
values currentPrice * totalShares; the empty portfolio totals 0 with the
world untouched; and a holding with no lots contributes exactly 0 (its
converted 0 market value vanishes on every conversion path). -/
theorem calculateTotal_spec :
    (∀ (om : Oracle) (assets : List Asset) (target : Currency) (w : World),
      (calculateTotal om assets target w).1 =
        ((holdingValues om target assets w).1).sum) ∧
    (∀ (om : Oracle) (target : Currency) (w : World),
      calculateTotal om [] target w = (0, w)) ∧
    (∀ (om : Oracle) (a : Asset) (assets : List Asset) (target : Currency)
        (w : World),
      (calculateTotal om ({ a with purchases := [] } :: assets) target w).1 =
        (calculateTotal om assets target
          (convertCurrency om 0 a.tradingCurrency target w).2).1) := by
  refine ⟨?_, ?_, ?_⟩
  · intro om assets target w
    simp [calculateTotal, totalLoop_eq]
  · intro om target w
    rfl
  · intro om a assets target w
    simp only [calculateTotal, totalLoop, List.foldl_nil, mul_zero]
    rw [convertCurrency_zero, zero_add]

/-- C8 (amended): fetchLatestPrices writes the fetched quote into
currentPrice for every asset, whether or not the manual override flag
currentPriceOverwritten is set (the flag is merely carried through by the
spread); and valuation is entirely independent of the flag, reading
whatever currentPrice the holding has. -/
theorem refresh_ignores_override_flag :
    (∀ (quotes : String → Option StockQuote) (rand : String → ℚ) (t : ℤ)
        (asset : Asset) (q : StockQuote), quotes asset.ticker = some q →
      refreshAsset quotes rand t asset =
        { asset with
            currentPrice := q.price
            previousPrice := q.previousClose
            lastUpdated := q.timestamp }) ∧
    (∀ (quotes : String → Option StockQuote) (rand : String → ℚ) (t : ℤ)
        (assets : List Asset),
      fetchLatestPrices quotes rand t assets =
        assets.map (refreshAsset quotes rand t)) ∧
    (∀ (om : Oracle) (asset : Asset) (target : Currency) (w : World)
        (b : Bool),
      calculateProfitLoss om { asset with currentPriceOverwritten := b }
          target w =
        calculateProfitLoss om asset target w) := by
  refine ⟨?_, fun _ _ _ _ => rfl, fun _ _ _ _ _ => rfl⟩
  intro quotes rand t asset q hq
  simp [refreshAsset, hq]

/-- C8 witness: the AAPL asset with the override flag set still gets the
fetched price 50 written into currentPrice by the refresh. -/
theorem refresh_ignores_override_flag_witness :
    refreshAsset aaplQuotes zeroRand 0 flagAsset =
      { flagAsset with
          currentPrice := 50
          previousPrice := 49
          lastUpdated := 1 } :=
  refresh_ignores_override_flag.1 aaplQuotes zeroRand 0 flagAsset
    aaplQuote rfl

/-- C8 counterexample: flagAsset has currentPriceOverwritten = true and
currentPrice 100, yet the periodic refresh writes the fetched price 50 over
it — the write-back is not skipped for override-flagged holdings. -/
theorem refresh_overrides_flagged_price :
    (fetchLatestPrices aaplQuotes zeroRand 0 [flagAsset]).map
      Asset.currentPrice = [50] ∧
    flagAsset.currentPriceOverwritten = true ∧
    flagAsset.currentPrice = 100 ∧
    (50 : ℚ) ≠ 100 := by
  exact ⟨rfl, rfl, rfl, by norm_num⟩

end Portfolio
